import Mathlib

/-!
Verification of the TimeWarden tracking engine against its specification.

This file gives a shallow embedding of the core data model and operations of
the TimeWarden browser extension: the time utilities (src/lib/utils.ts), the
domain matcher (src/lib/domain-matcher.ts), the storage manager
(src/background/storage-manager.ts), and the timer engine
(src/background/timer-engine.ts) together with the storage-writing parts of
the block manager and reset manager.

Modelling conventions:
- Wall-clock instants are modelled by JSTime: a calendar day number (Int, one
  unit per calendar day, so that the JS Date day arithmetic used by
  getCurrentPeriodDate becomes adding or subtracting 1) plus the millisecond
  offset inside that day.  epochMs recovers the total-millisecond view used
  by Date.now arithmetic.
- Quantities the source stores in JS numbers of seconds (time spent, session
  durations, limits, pause allowances) are modelled as rationals, since the
  source divides millisecond differences by 1000.
- The persistent storage document is StorageSchema, exactly mirroring
  src/lib/types.ts.  Runtime-only maps (activeTracking, pausedDomains,
  graceEndsAt) and the browser alarm table are association lists inside
  EngineState; JS Map insertion-order semantics are preserved by replacing
  in place on update and appending on fresh insert.
- Browser I/O (tab redirection, notification popups, badge drawing) is not
  storage-affecting and is omitted; alarm creation and clearing is modelled
  by the alarms list of EngineState.
-/

-- ============================================================
-- Wall-clock model
-- ============================================================

/-- A wall-clock instant: calendar day number plus milliseconds into the day.
Models the JS Date values used by the source. -/
structure JSTime where
  dayNumber : Int
  msOfDay : Nat
deriving DecidableEq

/-- Total milliseconds since the epoch, as used by Date.now arithmetic. -/
def JSTime.epochMs (t : JSTime) : Int :=
  t.dayNumber * 86400000 + t.msOfDay

/-- Day of week of the instant (JS getDay), with day 0 chosen as Sunday. -/
def JSTime.weekday (t : JSTime) : Fin 7 :=
  ⟨(t.dayNumber % 7).toNat, by omega⟩

/-- The instant a given number of milliseconds earlier (JS new Date(now - ms));
delta is assumed at most one day, as in the single source use (1000 ms). -/
def JSTime.subMs (t : JSTime) (ms : Nat) : JSTime :=
  if ms ≤ t.msOfDay then ⟨t.dayNumber, t.msOfDay - ms⟩
  else ⟨t.dayNumber - 1, t.msOfDay + 86400000 - ms⟩

-- ============================================================
-- Data model (src/lib/types.ts)
-- ============================================================

/-- Per-day override for a domain limit and/or reset time. -/
structure DayOverride where
  limitSeconds : Option ℚ
  resetTime : Option String

/-- Configuration for a single tracked domain. -/
structure DomainConfig where
  domain : String
  dailyLimitSeconds : ℚ
  enabled : Bool
  createdAt : String
  pauseAllowanceSeconds : ℚ
  resetTime : Option String
  dayOverrides : Fin 7 → Option DayOverride

/-- A single tracking session.  startTime and endTime are instants (the source
stores ISO strings of those instants). -/
structure Session where
  startTime : Int
  endTime : Option Int
  durationSeconds : ℚ
deriving DecidableEq

/-- Which threshold notifications have fired in the period. -/
structure NotificationFlags where
  tenPercent : Bool
deriving DecidableEq

/-- Usage data for a single domain within a single period. -/
structure DomainUsage where
  domain : String
  timeSpentSeconds : ℚ
  visitCount : Nat
  sessions : List Session
  pausedSeconds : ℚ
  limitSeconds : ℚ
  resetTime : String
  notifications : NotificationFlags
  blocked : Bool
  blockedAt : Option Int
deriving DecidableEq

/-- Usage data for a single calendar day (period). -/
structure DailyUsage where
  date : Int
  domains : List DomainUsage
deriving DecidableEq

/-- Global settings. -/
structure GlobalSettings where
  resetTime : String
  notificationsEnabled : Bool
  gracePeriodSeconds : ℚ
  theme : String

/-- The full persisted document. -/
structure StorageSchema where
  domains : List DomainConfig
  usage : List DailyUsage
  settings : GlobalSettings

/-- Maximum number of daily usage entries to keep (src/lib/constants.ts). -/
def MAX_USAGE_DAYS : Nat := 30

-- ============================================================
-- Time utilities (src/lib/utils.ts)
-- ============================================================

/-- Numeric value of a decimal digit character. -/
def digitVal (c : Char) : Nat := c.toNat - 48

/-- Parse an HH:MM time string (regex one or two digit hours, exactly two
digit minutes, then a range check), as in parseTimeString. -/
def parseTimeString (time : String) : Option (Nat × Nat) :=
  match time.toList with
  | [a, ':', b, c] =>
    if a.isDigit && b.isDigit && c.isDigit then
      let hours := digitVal a
      let minutes := 10 * digitVal b + digitVal c
      if hours > 23 || minutes > 59 then none else some (hours, minutes)
    else none
  | [a, a2, ':', b, c] =>
    if a.isDigit && a2.isDigit && b.isDigit && c.isDigit then
      let hours := 10 * digitVal a + digitVal a2
      let minutes := 10 * digitVal b + digitVal c
      if hours > 23 || minutes > 59 then none else some (hours, minutes)
    else none
  | _ => none

/-- Effective reset time for a domain on a given day: day override, then
domain default, then global default. -/
def getEffectiveResetTime (config : DomainConfig) (day : Fin 7)
    (globalResetTime : String) : String :=
  ((config.dayOverrides day).bind (fun o => o.resetTime)).getD
    (config.resetTime.getD globalResetTime)

/-- Effective daily limit for a domain on a given day: day override, then
domain default. -/
def getEffectiveLimit (config : DomainConfig) (day : Fin 7) : ℚ :=
  ((config.dayOverrides day).bind (fun o => o.limitSeconds)).getD
    config.dailyLimitSeconds

/-- Which usage date a domain maps to at instant now, per getCurrentPeriodDate:
before the effective reset moment of the current day the period is still
yesterday, otherwise today; an unparsable reset string falls back to today. -/
def getCurrentPeriodDate (config : DomainConfig) (globalResetTime : String)
    (now : JSTime) : Int :=
  let day := now.weekday
  let resetTime := getEffectiveResetTime config day globalResetTime
  match parseTimeString resetTime with
  | none => now.dayNumber
  | some (h, m) =>
    let resetToday : JSTime := ⟨now.dayNumber, (h * 60 + m) * 60000⟩
    if now.epochMs < resetToday.epochMs then now.dayNumber - 1 else now.dayNumber

-- ============================================================
-- Domain matcher (src/lib/domain-matcher.ts)
-- ============================================================

/-- A URL already parsed by the platform URL parser: scheme and host. -/
structure ParsedURL where
  protocol : String
  hostname : String

/-- Character-level model of String.startsWith. -/
def strStartsWith (s p : String) : Bool :=
  p.toList.isPrefixOf s.toList

/-- Extract the hostname from a URL, only for http or https schemes. -/
def extractHostname (url : ParsedURL) : Option String :=
  if url.protocol == "http:" || url.protocol == "https:" then
    some url.hostname
  else none

/-- Loop body of matchDomain over the configured domain list. -/
def matchLoop (hostname : String) : List String → Option String
  | [] => none
  | d :: rest =>
    if hostname == d then some d
    else if !(strStartsWith d "www.") && hostname == "www." ++ d then some d
    else matchLoop hostname rest

/-- Match a URL against a list of tracked domains, per matchDomain: exact
hostname match, plus the www variant for configured domains without the
www prefix. -/
def matchDomain (url : ParsedURL) (trackedDomains : List String) : Option String :=
  match extractHostname url with
  | none => none
  | some hostname => matchLoop hostname trackedDomains

-- ============================================================
-- Storage manager (src/background/storage-manager.ts)
-- ============================================================

/-- Replace the first element satisfying p by its image under f (models an
in-place write at the index found by Array.prototype.findIndex). -/
def updateFirst {α : Type} (p : α → Bool) (f : α → α) : List α → List α
  | [] => []
  | x :: xs => if p x then f x :: xs else x :: updateFirst p f xs

/-- Look up a domain configuration by hostname. -/
def getDomainConfig (s : StorageSchema) (domain : String) : Option DomainConfig :=
  s.domains.find? (fun d => d.domain == domain)

/-- Look up the daily usage entry for a date. -/
def getDailyUsage (s : StorageSchema) (date : Int) : Option DailyUsage :=
  s.usage.find? (fun u => u.date == date)

/-- Look up the domain usage inside the daily entry for a date. -/
def getDomainUsage (s : StorageSchema) (domain : String) (date : Int) :
    Option DomainUsage :=
  (getDailyUsage s date).bind (fun daily => daily.domains.find? (fun d => d.domain == domain))

/-- Update a domain usage entry through an updater; a silent no-op when the
daily entry or the domain entry is absent, per updateDomainUsage. -/
def updateDomainUsage (domain : String) (date : Int)
    (updater : DomainUsage → DomainUsage) (s : StorageSchema) : StorageSchema :=
  match s.usage.find? (fun u => u.date == date) with
  | none => s
  | some daily =>
    match daily.domains.find? (fun d => d.domain == domain) with
    | none => s
    | some _ =>
      let g : DailyUsage → DailyUsage := fun u =>
        { u with domains := updateFirst (fun d => d.domain == domain) updater u.domains }
      { s with usage := updateFirst (fun u => u.date == date) g s.usage }

/-- Fresh per-period snapshot created on first visit of a period
(getOrCreateDomainUsage creation branch). -/
def newDomainUsage (config : DomainConfig) (settings : GlobalSettings)
    (now : JSTime) : DomainUsage :=
  { domain := config.domain
    timeSpentSeconds := 0
    visitCount := 0
    sessions := []
    pausedSeconds := 0
    limitSeconds := getEffectiveLimit config now.weekday
    resetTime := getEffectiveResetTime config now.weekday settings.resetTime
    notifications := { tenPercent := false }
    blocked := false
    blockedAt := none }

/-- Append a fresh domain snapshot at the end of a daily entry (the push into
daily.domains). -/
def appendDomain (du : DomainUsage) (u : DailyUsage) : DailyUsage :=
  { u with domains := u.domains ++ [du] }

/-- Result record of getOrCreateDomainUsage. -/
structure UpsertResult where
  storage : StorageSchema
  usage : DomainUsage
  date : Int
  isNew : Bool

/-- The rolling cap: while more than MAX_USAGE_DAYS entries remain, shift off
the head. -/
def capUsageLog (l : List DailyUsage) : List DailyUsage :=
  l.drop (l.length - MAX_USAGE_DAYS)

/-- Date order used when sorting the usage log.  The source sorts with a
string comparison of ISO dates, which agrees with the numeric date order;
insertion sort agrees with the stable platform sort on the duplicate-free
logs the storage manager maintains. -/
instance : IsTotal DailyUsage (fun a b => a.date ≤ b.date) :=
  ⟨fun a b => le_total a.date b.date⟩

instance : IsTrans DailyUsage (fun a b => a.date ≤ b.date) :=
  ⟨fun _ _ _ hab hbc => le_trans hab hbc⟩

/-- Get or create the DomainUsage entry for the current period, per
getOrCreateDomainUsage: find or create the daily entry (on creation push at
the end, enforce the rolling cap by shifting the head, then sort by date),
then find or create the domain entry inside it, snapshotting the effective
limit and reset time of the day of creation. -/
def getOrCreateDomainUsage (config : DomainConfig) (settings : GlobalSettings)
    (now : JSTime) (s : StorageSchema) : UpsertResult :=
  let date := getCurrentPeriodDate config settings.resetTime now
  match s.usage.find? (fun u => u.date == date) with
  | some daily =>
    match daily.domains.find? (fun d => d.domain == config.domain) with
    | some du => { storage := s, usage := du, date := date, isNew := false }
    | none =>
      let du := newDomainUsage config settings now
      { storage :=
          { s with usage := updateFirst (fun u => u.date == date) (appendDomain du) s.usage }
        usage := du, date := date, isNew := true }
  | none =>
    let pushed := s.usage ++ [{ date := date, domains := [] }]
    let sorted := (capUsageLog pushed).insertionSort (fun a b => a.date ≤ b.date)
    let du := newDomainUsage config settings now
    { storage :=
        { s with usage := updateFirst (fun u => u.date == date) (appendDomain du) sorted }
      usage := du, date := date, isNew := true }

-- ============================================================
-- Runtime state (src/background/tab-tracker.ts, timer-engine.ts,
-- block-manager.ts)
-- ============================================================

/-- Why a domain is currently tracked. -/
inductive Reason where
  | focused
  | audible
deriving DecidableEq

/-- Per-tab runtime state. -/
structure TabState where
  audible : Bool
deriving DecidableEq

/-- In-memory tracking state for a single domain. -/
structure DomainTracking where
  startedAt : Option Int
  tabs : List (Nat × TabState)
  reason : Option Reason
deriving DecidableEq

/-- Per-domain runtime pause state. -/
structure PauseState where
  pausedAt : Int
  previousPausedSeconds : ℚ
  allowanceSeconds : ℚ
deriving DecidableEq

/-- A scheduled browser alarm. -/
structure AlarmInfo where
  name : String
  whenMs : ℚ
deriving DecidableEq

/-- The full in-memory engine state: storage plus the runtime-only maps and
the alarm table. -/
structure EngineState where
  storage : StorageSchema
  activeTracking : List (String × DomainTracking)
  pausedDomains : List (String × PauseState)
  graceEndsAt : List (String × Int)
  alarms : List AlarmInfo

/-- Map lookup over an association list (JS Map.get). -/
def alistGet {α : Type} (l : List (String × α)) (k : String) : Option α :=
  (l.find? (fun e => e.1 == k)).map (fun e => e.2)

/-- Map write over an association list (JS Map.set): replace in place when
present, append when fresh. -/
def alistSet {α : Type} (l : List (String × α)) (k : String) (v : α) :
    List (String × α) :=
  if (l.find? (fun e => e.1 == k)).isSome then
    updateFirst (fun e => e.1 == k) (fun e => (e.1, v)) l
  else l ++ [(k, v)]

/-- Map removal over an association list (JS Map.delete). -/
def alistErase {α : Type} (l : List (String × α)) (k : String) :
    List (String × α) :=
  l.filter (fun e => !(e.1 == k))

/-- Grace period query, per isDomainInGracePeriod: false when absent or falsy,
cleanup plus false when already expired, true otherwise.  Returns the possibly
cleaned-up graceEndsAt map. -/
def isDomainInGracePeriod (g : List (String × Int)) (domain : String)
    (nowMs : Int) : Bool × List (String × Int) :=
  match alistGet g domain with
  | none => (false, g)
  | some endsAt =>
    if endsAt == 0 then (false, g)
    else if nowMs ≥ endsAt then (false, alistErase g domain)
    else (true, g)

-- ============================================================
-- Alarm scheduling (timer-engine.ts)
-- ============================================================

/-- Alarms created when tracking starts, per scheduleTrackingAlarms: the
ninety-percent-used notification threshold when not yet passed nor fired, and
the limit alarm when time remains. -/
def scheduleTrackingAlarms (domain : String) (currentTimeSpent : ℚ)
    (limitSeconds : ℚ) (flags : NotificationFlags) (nowMs : Int) :
    List AlarmInfo :=
  let tenPctThreshold := limitSeconds * (9 / 10)
  let a1 : List AlarmInfo :=
    if currentTimeSpent < tenPctThreshold && !flags.tenPercent then
      [⟨"notify-10pct-" ++ domain, (nowMs : ℚ) + (tenPctThreshold - currentTimeSpent) * 1000⟩]
    else []
  let remaining := limitSeconds - currentTimeSpent
  let a2 : List AlarmInfo :=
    if remaining > 0 then [⟨"limit-" ++ domain, (nowMs : ℚ) + remaining * 1000⟩]
    else []
  a1 ++ a2

/-- Clear the threshold alarms of a domain, per clearTrackingAlarms. -/
def clearTrackingAlarms (domain : String) (alarms : List AlarmInfo) :
    List AlarmInfo :=
  alarms.filter (fun a =>
    !(a.name == "notify-10pct-" ++ domain) && !(a.name == "limit-" ++ domain))

-- ============================================================
-- Tracking start / stop (timer-engine.ts)
-- ============================================================

/-- Start tracking a domain, per startTracking: abort when the tracking entry
or the configuration is missing or disabled; ensure the period usage exists;
abort when blocked or in grace period; otherwise set the start timestamp,
append an open session and schedule threshold alarms. -/
def startTracking (domain : String) (reason : Reason) (now : JSTime)
    (st : EngineState) : EngineState :=
  match alistGet st.activeTracking domain with
  | none => st
  | some tr =>
    match getDomainConfig st.storage domain with
    | none => st
    | some config =>
      if !config.enabled then st
      else
        let settings := st.storage.settings
        let r := getOrCreateDomainUsage config settings now st.storage
        if r.usage.blocked then { st with storage := r.storage }
        else
          let g := isDomainInGracePeriod st.graceEndsAt domain now.epochMs
          if g.1 then { st with storage := r.storage, graceEndsAt := g.2 }
          else
            let tr1 := { tr with startedAt := some now.epochMs, reason := some reason }
            let date := getCurrentPeriodDate config settings.resetTime now
            let appendSession : DomainUsage → DomainUsage := fun u =>
              { u with sessions := u.sessions ++ [⟨now.epochMs, none, 0⟩] }
            let storage2 := updateDomainUsage domain date appendSession r.storage
            let newAlarms := scheduleTrackingAlarms domain r.usage.timeSpentSeconds
              r.usage.limitSeconds r.usage.notifications now.epochMs
            { st with
              storage := storage2,
              activeTracking := alistSet st.activeTracking domain tr1,
              graceEndsAt := g.2,
              alarms := st.alarms ++ newAlarms }

/-- Close the newest open session, assigning its end time and OVERWRITING its
durationSeconds with the supplied elapsed value, exactly as the source
stopTracking updater does. -/
def closeLastOpenSession (u : DomainUsage) (nowMs : Int) (elapsed : ℚ) :
    DomainUsage :=
  match u.sessions.getLast? with
  | some last =>
    if last.endTime = none then
      { u with sessions :=
          u.sessions.dropLast ++ [{ last with endTime := some nowMs, durationSeconds := elapsed }] }
    else u
  | none => u

/-- Stop tracking a domain, per stopTracking: compute elapsed seconds, clear
the runtime timestamp, add elapsed to timeSpentSeconds, close the newest open
session, and clear threshold alarms. -/
def stopTracking (domain : String) (now : JSTime) (st : EngineState) :
    EngineState :=
  match alistGet st.activeTracking domain with
  | none => st
  | some tr =>
    match tr.startedAt with
    | none => st
    | some t0 =>
      let elapsed : ℚ := ((now.epochMs - t0 : Int) : ℚ) / 1000
      let tr1 := { tr with startedAt := none, reason := none }
      let st1 := { st with activeTracking := alistSet st.activeTracking domain tr1 }
      match getDomainConfig st1.storage domain with
      | none => st1
      | some config =>
        let date := getCurrentPeriodDate config st1.storage.settings.resetTime now
        let upd : DomainUsage → DomainUsage := fun u =>
          closeLastOpenSession { u with timeSpentSeconds := u.timeSpentSeconds + elapsed }
            now.epochMs elapsed
        { st1 with
          storage := updateDomainUsage domain date upd st1.storage,
          alarms := clearTrackingAlarms domain st1.alarms }

-- ============================================================
-- Periodic flush (timer-engine.ts flushActiveTrackingImpl)
-- ============================================================

/-- Storage updater applied by the periodic flush: add elapsed to
timeSpentSeconds and ADD it to the newest open session durationSeconds. -/
def flushUpdater (elapsed : ℚ) (u : DomainUsage) : DomainUsage :=
  let u1 := { u with timeSpentSeconds := u.timeSpentSeconds + elapsed }
  match u1.sessions.getLast? with
  | some last =>
    if last.endTime = none then
      { u1 with sessions :=
          u1.sessions.dropLast ++ [{ last with durationSeconds := last.durationSeconds + elapsed }] }
    else u1
  | none => u1

/-- Iteration of the flush over the activeTracking entries, threading storage
and resetting each flushed startedAt to now. -/
def flushEntries (now : JSTime) :
    List (String × DomainTracking) → StorageSchema →
    List (String × DomainTracking) × StorageSchema
  | [], s => ([], s)
  | (d, tr) :: rest, s =>
    match tr.startedAt with
    | none =>
      let r := flushEntries now rest s
      ((d, tr) :: r.1, r.2)
    | some t0 =>
      let elapsed : ℚ := ((now.epochMs - t0 : Int) : ℚ) / 1000
      if elapsed ≤ 0 then
        let r := flushEntries now rest s
        ((d, tr) :: r.1, r.2)
      else
        match getDomainConfig s d with
        | none =>
          let r := flushEntries now rest s
          ((d, tr) :: r.1, r.2)
        | some config =>
          let date := getCurrentPeriodDate config s.settings.resetTime now
          let s1 := updateDomainUsage d date (flushUpdater elapsed) s
          let r := flushEntries now rest s1
          ((d, { tr with startedAt := some now.epochMs }) :: r.1, r.2)

/-- Periodic flush, per flushActiveTrackingImpl: persist elapsed time of every
currently tracked domain and reset its startedAt baseline to now. -/
def flushActiveTrackingImpl (now : JSTime) (st : EngineState) : EngineState :=
  let r := flushEntries now st.activeTracking st.storage
  { st with activeTracking := r.1, storage := r.2 }

-- ============================================================
-- Visit counting and notification marking (timer-engine.ts)
-- ============================================================

/-- Visit increment, per handleVisitImpl: ensure the period usage exists, then
increment visitCount. -/
def handleVisitImpl (domain : String) (now : JSTime) (st : EngineState) :
    EngineState :=
  match getDomainConfig st.storage domain with
  | none => st
  | some config =>
    if !config.enabled then st
    else
      let r := getOrCreateDomainUsage config st.storage.settings now st.storage
      let upd : DomainUsage → DomainUsage := fun u =>
        { u with visitCount := u.visitCount + 1 }
      { st with storage := updateDomainUsage domain r.date upd r.storage }

/-- Threshold notification alarm handler, per handleNotificationAlarm: mark
the fired flag in the period usage. -/
def handleNotificationAlarm (alarmName : String) (now : JSTime)
    (st : EngineState) : EngineState :=
  if strStartsWith alarmName "notify-10pct-" then
    let domain := alarmName.drop 13
    match getDomainConfig st.storage domain with
    | none => st
    | some config =>
      let date := getCurrentPeriodDate config st.storage.settings.resetTime now
      let upd : DomainUsage → DomainUsage := fun u =>
        { u with notifications := { tenPercent := true } }
      { st with storage := updateDomainUsage domain date upd st.storage }
  else st

-- ============================================================
-- Blocking (block-manager.ts blockDomain; tab redirection omitted)
-- ============================================================

/-- Block a domain, per blockDomain: mark blocked with the block instant in
the current period usage and clear the runtime grace entry.  The tab
redirection that follows in the source touches no engine state. -/
def blockDomain (domain : String) (now : JSTime) (st : EngineState) :
    EngineState :=
  match getDomainConfig st.storage domain with
  | none => st
  | some config =>
    let date := getCurrentPeriodDate config st.storage.settings.resetTime now
    let upd : DomainUsage → DomainUsage := fun u =>
      { u with blocked := true, blockedAt := some now.epochMs }
    { st with
      storage := updateDomainUsage domain date upd st.storage,
      graceEndsAt := alistErase st.graceEndsAt domain }

-- ============================================================
-- Pause functionality (timer-engine.ts)
-- ============================================================

/-- Result record of togglePause. -/
structure PauseToggleResult where
  success : Bool
  isPaused : Bool
  pauseRemainingSeconds : Int
deriving DecidableEq

/-- Toggle pause for a domain, per togglePause.  Fails for a missing or
disabled configuration and for a blocked period.  Resume records the elapsed
pause to storage, clears the runtime entry and the pause-end alarm.  Pause
fails when no allowance remains; otherwise it stops tracking when ON, records
the runtime entry, and schedules the pause-end alarm when the allowance runs
out. -/
def togglePause (domain : String) (now : JSTime) (st : EngineState) :
    EngineState × PauseToggleResult :=
  match getDomainConfig st.storage domain with
  | none => (st, ⟨false, false, 0⟩)
  | some config =>
    if !config.enabled then (st, ⟨false, false, 0⟩)
    else
      let date := getCurrentPeriodDate config st.storage.settings.resetTime now
      let usage := getDomainUsage st.storage domain date
      if (usage.map (fun u => u.blocked)).getD false then (st, ⟨false, false, 0⟩)
      else
        let pausedSecondsUsed := (usage.map (fun u => u.pausedSeconds)).getD 0
        let allowanceSeconds := config.pauseAllowanceSeconds
        match alistGet st.pausedDomains domain with
        | some pauseState =>
          let pauseElapsed : ℚ := ((now.epochMs - pauseState.pausedAt : Int) : ℚ) / 1000
          let upd : DomainUsage → DomainUsage := fun u =>
            { u with pausedSeconds := u.pausedSeconds + pauseElapsed }
          let st1 := { st with
            storage := updateDomainUsage domain date upd st.storage,
            pausedDomains := alistErase st.pausedDomains domain,
            alarms := st.alarms.filter (fun a => !(a.name == "pause-end-" ++ domain)) }
          let remaining := max 0 (allowanceSeconds - pausedSecondsUsed - pauseElapsed)
          (st1, ⟨true, false, Int.floor remaining⟩)
        | none =>
          let remainingAllowance := allowanceSeconds - pausedSecondsUsed
          if remainingAllowance ≤ 0 then (st, ⟨false, false, 0⟩)
          else
            let st1 :=
              match alistGet st.activeTracking domain with
              | some tr => if tr.startedAt.isSome then stopTracking domain now st else st
              | none => st
            let st2 := { st1 with
              pausedDomains := alistSet st1.pausedDomains domain
                ⟨now.epochMs, pausedSecondsUsed, allowanceSeconds⟩,
              alarms := st1.alarms ++
                [⟨"pause-end-" ++ domain, (now.epochMs : ℚ) + remainingAllowance * 1000⟩] }
            (st2, ⟨true, true, Int.floor remainingAllowance⟩)

/-- Pause-end alarm handler, per handlePauseEndAlarm: record the elapsed pause
to storage (when the configuration still exists) and clear the runtime
entry. -/
def handlePauseEndAlarm (alarmName : String) (now : JSTime) (st : EngineState) :
    EngineState :=
  let domain := alarmName.drop 10
  match alistGet st.pausedDomains domain with
  | none => st
  | some pauseState =>
    let pauseElapsed : ℚ := ((now.epochMs - pauseState.pausedAt : Int) : ℚ) / 1000
    let s1 :=
      match getDomainConfig st.storage domain with
      | none => st.storage
      | some config =>
        let date := getCurrentPeriodDate config st.storage.settings.resetTime now
        let upd : DomainUsage → DomainUsage := fun u =>
          { u with pausedSeconds := u.pausedSeconds + pauseElapsed }
        updateDomainUsage domain date upd st.storage
    { st with storage := s1, pausedDomains := alistErase st.pausedDomains domain }

/-- Pause state for a status response, per getPauseState: live remaining
allowance while paused, stored remaining allowance otherwise. -/
def getPauseState (pausedDomains : List (String × PauseState)) (domain : String)
    (pausedSecondsFromStorage : ℚ) (allowanceSeconds : ℚ) (nowMs : Int) :
    Bool × Int :=
  match alistGet pausedDomains domain with
  | some ps =>
    let pauseElapsed : ℚ := ((nowMs - ps.pausedAt : Int) : ℚ) / 1000
    let totalUsed := ps.previousPausedSeconds + pauseElapsed
    (true, Int.floor (max 0 (ps.allowanceSeconds - totalUsed)))
  | none => (false, Int.floor (max 0 (allowanceSeconds - pausedSecondsFromStorage)))

-- ============================================================
-- Status computation (timer-engine.ts getStatusForDomain)
-- ============================================================

/-- Real-time status record returned to the UI. -/
structure StatusResponse where
  domain : String
  timeSpentSeconds : Int
  timeRemainingSeconds : Int
  limitSeconds : ℚ
  visitCount : Nat
  sessionCount : Nat
  isPaused : Bool
  pauseRemainingSeconds : Int
  isBlocked : Bool
  isTracking : Bool
  trackingReason : Option Reason
deriving DecidableEq

/-- Status for an unknown or unconfigured domain. -/
def defaultStatusResponse (domain : String) : StatusResponse :=
  ⟨domain, 0, 0, 0, 0, 0, false, 0, false, false, none⟩

/-- Real-time status of a domain, per getStatusForDomain: stored time plus
live elapsed when tracking, remaining time clamped at zero, pause state, and
period counters.  The operation only reads; the returned engine state is the
input state. -/
def getStatusForDomain (domain : String) (now : JSTime) (st : EngineState) :
    EngineState × StatusResponse :=
  match getDomainConfig st.storage domain with
  | none => (st, defaultStatusResponse domain)
  | some config =>
    let date := getCurrentPeriodDate config st.storage.settings.resetTime now
    let usage := getDomainUsage st.storage domain date
    let tracking := alistGet st.activeTracking domain
    let startedAt := tracking.bind (fun tr => tr.startedAt)
    let isTracking := startedAt.isSome
    let base := (usage.map (fun u => u.timeSpentSeconds)).getD 0
    let live : ℚ :=
      match startedAt with
      | some t0 => ((now.epochMs - t0 : Int) : ℚ) / 1000
      | none => 0
    let timeSpentSeconds := base + live
    let limitSeconds :=
      (usage.map (fun u => u.limitSeconds)).getD (getEffectiveLimit config now.weekday)
    let timeRemainingSeconds := max 0 (limitSeconds - timeSpentSeconds)
    let p := getPauseState st.pausedDomains domain
      ((usage.map (fun u => u.pausedSeconds)).getD 0) config.pauseAllowanceSeconds
      now.epochMs
    (st,
      { domain := domain
        timeSpentSeconds := Int.floor timeSpentSeconds
        timeRemainingSeconds := Int.floor timeRemainingSeconds
        limitSeconds := limitSeconds
        visitCount := (usage.map (fun u => u.visitCount)).getD 0
        sessionCount := (usage.map (fun u => u.sessions.length)).getD 0
        isPaused := p.1
        pauseRemainingSeconds := p.2
        isBlocked := (usage.map (fun u => u.blocked)).getD false
        isTracking := isTracking
        trackingReason := tracking.bind (fun tr => tr.reason) })

-- ============================================================
-- Reset accumulation (reset-manager handleResetAlarm, storage part:
-- next-reset alarm scheduling and the reevaluation callback are omitted)
-- ============================================================

/-- Storage-accumulation step of handleResetAlarm: when the domain is
currently tracked, clear the runtime timestamp and write the elapsed time and
session end into the PREVIOUS period, found by looking up the period date one
second before now. -/
def resetAlarmAccumulate (domain : String) (now : JSTime) (st : EngineState) :
    EngineState :=
  match alistGet st.activeTracking domain with
  | none => st
  | some tr =>
    match tr.startedAt with
    | none => st
    | some t0 =>
      let elapsed : ℚ := ((now.epochMs - t0 : Int) : ℚ) / 1000
      let tr1 := { tr with startedAt := none, reason := none }
      let st1 := { st with activeTracking := alistSet st.activeTracking domain tr1 }
      match getDomainConfig st1.storage domain with
      | none => st1
      | some config =>
        if elapsed > 0 then
          let justBeforeReset := now.subMs 1000
          let oldDate := getCurrentPeriodDate config st1.storage.settings.resetTime
            justBeforeReset
          let upd : DomainUsage → DomainUsage := fun u =>
            closeLastOpenSession { u with timeSpentSeconds := u.timeSpentSeconds + elapsed }
              now.epochMs elapsed
          { st1 with storage := updateDomainUsage domain oldDate upd st1.storage }
        else st1

-- ============================================================
-- Derived notions used by the specification claims
-- ============================================================

/-- Sum of durationSeconds over the closed sessions of a usage entry. -/
def closedSessionDurationSum (u : DomainUsage) : ℚ :=
  (u.sessions.filter (fun s => s.endTime.isSome)).foldl
    (fun acc s => acc + s.durationSeconds) 0

/-- Live elapsed seconds of the current tracking run of a domain, measured
from the runtime startedAt baseline, as the status query adds it. -/
def liveElapsed (st : EngineState) (domain : String) (nowMs : Int) : ℚ :=
  match (alistGet st.activeTracking domain).bind (fun tr => tr.startedAt) with
  | some t0 => ((nowMs - t0 : Int) : ℚ) / 1000
  | none => 0

/-- Frame property between two storage documents: any usage entry present in
both keeps its frozen limitSeconds and resetTime snapshot. -/
def framePreserved (s s' : StorageSchema) : Prop :=
  ∀ dom p u u', getDomainUsage s dom p = some u → getDomainUsage s' dom p = some u' →
    u'.limitSeconds = u.limitSeconds ∧ u'.resetTime = u.resetTime

-- ============================================================
-- Concrete states used to exercise the theorems
-- ============================================================

/-- Demo configuration: a.test, 60 second daily limit, 300 second pause
allowance, no overrides, global reset inherited. -/
def demoCfg : DomainConfig :=
  { domain := "a.test"
    dailyLimitSeconds := 60
    enabled := true
    createdAt := ""
    pauseAllowanceSeconds := 300
    resetTime := none
    dayOverrides := fun _ => none }

/-- Demo global settings with midnight reset. -/
def demoSettings : GlobalSettings :=
  { resetTime := "00:00"
    notificationsEnabled := true
    gracePeriodSeconds := 60
    theme := "system" }

/-- Demo usage entry for a.test with one open session started at instant 0. -/
def demoUsage0 : DomainUsage :=
  { domain := "a.test"
    timeSpentSeconds := 0
    visitCount := 1
    sessions := [⟨0, none, 0⟩]
    pausedSeconds := 0
    limitSeconds := 60
    resetTime := "00:00"
    notifications := { tenPercent := false }
    blocked := false
    blockedAt := none }

/-- Demo storage with the single a.test entry in the period dated 0. -/
def demoStorage0 : StorageSchema :=
  { domains := [demoCfg], usage := [⟨0, [demoUsage0]⟩], settings := demoSettings }

/-- Demo runtime tracking entry for a.test: tracking since instant 0. -/
def demoTracking0 : DomainTracking :=
  { startedAt := some 0, tabs := [(1, ⟨false⟩)], reason := some Reason.focused }

/-- Demo engine state: a.test tracked since instant 0 with the open session
of demoUsage0. -/
def demoState0 : EngineState :=
  { storage := demoStorage0
    activeTracking := [("a.test", demoTracking0)]
    pausedDomains := []
    graceEndsAt := []
    alarms := [] }

/-- The engine state after a periodic flush at 30 s followed by a tracking
stop at 40 s, starting from demoState0. -/
def demoAfterFlushStop : EngineState :=
  stopTracking "a.test" ⟨0, 40000⟩ (flushActiveTrackingImpl ⟨0, 30000⟩ demoState0)

/-- Demo engine state with a configured a.test but no usage entry yet. -/
def demoStateNoUsage : EngineState :=
  { storage := { domains := [demoCfg], usage := [], settings := demoSettings }
    activeTracking := []
    pausedDomains := []
    graceEndsAt := []
    alarms := [] }

/-- Demo usage entry for a.test already blocked in period 0. -/
def demoUsageBlocked : DomainUsage :=
  { demoUsage0 with sessions := [], blocked := true, blockedAt := some 0 }

/-- Demo engine state with a.test blocked in the current period and a
registered tab but tracking OFF. -/
def demoStateBlocked : EngineState :=
  { storage := { domains := [demoCfg], usage := [⟨0, [demoUsageBlocked]⟩], settings := demoSettings }
    activeTracking := [("a.test", ⟨none, [(1, ⟨false⟩)], none⟩)]
    pausedDomains := []
    graceEndsAt := []
    alarms := [] }

/-- A usage log of thirty empty daily entries dated 2 through 31. -/
def demoLogC7 : List DailyUsage :=
  (List.range 30).map (fun i => ⟨(i : Int) + 2, []⟩)

/-- Demo storage holding the thirty-entry log dated 2 through 31. -/
def demoStorageC7 : StorageSchema :=
  { domains := [demoCfg], usage := demoLogC7, settings := demoSettings }

-- ============================================================
-- Theorems
-- ============================================================

/-- Helper: characterization of the matchDomain loop over the configured
list. -/
theorem matchLoop_spec (hst : String) (ds : List String) :
    (∀ d, matchLoop hst ds = some d → d ∈ ds ∧
      (hst = d ∨ (strStartsWith d "www." = false ∧ hst = "www." ++ d))) ∧
    ((matchLoop hst ds).isSome ↔
      ∃ d ∈ ds, hst = d ∨ (strStartsWith d "www." = false ∧ hst = "www." ++ d)) := by
  induction ds with
  | nil => simp [matchLoop]
  | cons d rest ih =>
    by_cases h1 : hst = d
    · subst h1
      simp [matchLoop]
    · by_cases h2 : strStartsWith d "www." = false ∧ hst = "www." ++ d
      · constructor
        · intro d' hd'
          simp only [matchLoop, beq_iff_eq, if_neg h1] at hd'
          rw [if_pos] at hd'
          · cases hd'
            exact ⟨List.mem_cons_self d rest, Or.inr h2⟩
          · simp [h2.1, h2.2]
        · simp only [matchLoop, beq_iff_eq, if_neg h1]
          rw [if_pos]
          · simp only [Option.isSome_some, true_iff]
            exact ⟨d, List.mem_cons_self d rest, Or.inr h2⟩
          · simp [h2.1, h2.2]
      · constructor
        · intro d' hd'
          simp only [matchLoop, beq_iff_eq, if_neg h1] at hd'
          rw [if_neg] at hd'
          · rcases (ih.1 d' hd') with ⟨hm, hc⟩
            exact ⟨List.mem_cons_of_mem d hm, hc⟩
          · intro hcontra
            simp only [Bool.and_eq_true, Bool.not_eq_true', beq_iff_eq] at hcontra
            exact h2 hcontra
        · simp only [matchLoop, beq_iff_eq, if_neg h1]
          rw [if_neg]
          · rw [ih.2]
            constructor
            · rintro ⟨d', hm, hc⟩
              exact ⟨d', List.mem_cons_of_mem d hm, hc⟩
            · rintro ⟨d', hm, hc⟩
              rcases List.mem_cons.mp hm with h | h
              · subst h
                rcases hc with hc | hc
                · exact absurd hc h1
                · exact absurd hc h2
              · exact ⟨d', h, hc⟩
          · intro hcontra
            simp only [Bool.and_eq_true, Bool.not_eq_true', beq_iff_eq] at hcontra
            exact h2 hcontra

/-- C9: a URL matches only when its scheme is http or https; a configured
hostname without the www prefix matches exactly itself and its www variant; a
configured hostname with the www prefix matches only itself; no other
subdomain of a configured hostname matches. -/
theorem matchDomain_spec (url : ParsedURL) (ds : List String) :
    (∀ d, matchDomain url ds = some d → d ∈ ds ∧
      (url.protocol = "http:" ∨ url.protocol = "https:") ∧
      (url.hostname = d ∨ (strStartsWith d "www." = false ∧ url.hostname = "www." ++ d))) ∧
    ((matchDomain url ds).isSome ↔
      ((url.protocol = "http:" ∨ url.protocol = "https:") ∧
        ∃ d ∈ ds, url.hostname = d ∨
          (strStartsWith d "www." = false ∧ url.hostname = "www." ++ d))) := by
  by_cases hp : (url.protocol == "http:" || url.protocol == "https:") = true
  · have hx : extractHostname url = some url.hostname := by
      unfold extractHostname
      rw [if_pos hp]
    have hp' : url.protocol = "http:" ∨ url.protocol = "https:" := by
      simpa [Bool.or_eq_true, beq_iff_eq] using hp
    constructor
    · intro d hd
      unfold matchDomain at hd
      rw [hx] at hd
      rcases (matchLoop_spec url.hostname ds).1 d hd with ⟨hm, hc⟩
      exact ⟨hm, hp', hc⟩
    · unfold matchDomain
      rw [hx]
      rw [(matchLoop_spec url.hostname ds).2]
      simp [hp']
  · have hx : extractHostname url = none := by
      unfold extractHostname
      rw [if_neg hp]
    have hp' : ¬(url.protocol = "http:" ∨ url.protocol = "https:") := by
      simpa [Bool.or_eq_true, beq_iff_eq] using hp
    constructor
    · intro d hd
      unfold matchDomain at hd
      rw [hx] at hd
      cases hd
    · unfold matchDomain
      rw [hx]
      simp [hp']

/-- Witness for matchDomain_spec at a concrete matching navigation. -/
theorem matchDomain_spec_witness :
    "youtube.test" ∈ ["youtube.test"] ∧
    ("https:" = "http:" ∨ "https:" = "https:") ∧
    ("www.youtube.test" = "youtube.test" ∨
      (strStartsWith "youtube.test" "www." = false ∧
        "www.youtube.test" = "www." ++ "youtube.test")) :=
  (matchDomain_spec ⟨"https:", "www.youtube.test"⟩ ["youtube.test"]).1 "youtube.test" (by decide)

/-- C6: with a parsable effective reset string, an instant strictly before the
reset moment of the current day maps to yesterday, and any later or equal
instant (including the exact boundary) maps to today; an unparsable reset
string falls back to today. -/
theorem getCurrentPeriodDate_spec (config : DomainConfig) (g : String)
    (now : JSTime) :
    (∀ h m, parseTimeString (getEffectiveResetTime config now.weekday g) = some (h, m) →
      ((now.epochMs < (⟨now.dayNumber, (h * 60 + m) * 60000⟩ : JSTime).epochMs →
        getCurrentPeriodDate config g now = now.dayNumber - 1) ∧
       ((⟨now.dayNumber, (h * 60 + m) * 60000⟩ : JSTime).epochMs ≤ now.epochMs →
        getCurrentPeriodDate config g now = now.dayNumber))) ∧
    (parseTimeString (getEffectiveResetTime config now.weekday g) = none →
      getCurrentPeriodDate config g now = now.dayNumber) := by
  constructor
  · intro h m hp
    constructor
    · intro hlt
      simp only [getCurrentPeriodDate, hp, if_pos hlt]
    · intro hge
      simp only [getCurrentPeriodDate, hp, if_neg (not_lt.mpr hge)]
  · intro hp
    simp only [getCurrentPeriodDate, hp]

/-- Witness for getCurrentPeriodDate_spec at the exact midnight boundary:
reset 00:00 and now at 00:00:00.000 of day 5 give period date 5 (today). -/
theorem getCurrentPeriodDate_spec_witness :
    getCurrentPeriodDate demoCfg "00:00" ⟨5, 0⟩ = 5 :=
  ((getCurrentPeriodDate_spec demoCfg "00:00" ⟨5, 0⟩).1 0 0 rfl).2 (by decide)

/-- C10: when the usage log has no daily entry for the date, or the daily
entry has no record for the domain, updateDomainUsage returns the storage
unchanged and never invokes the updater (the result is the same for every
updater). -/
theorem updateDomainUsage_noop_of_missing (domain : String) (date : Int)
    (s : StorageSchema) (h : getDomainUsage s domain date = none) :
    ∀ f, updateDomainUsage domain date f s = s := by
  intro f
  unfold getDomainUsage getDailyUsage at h
  unfold updateDomainUsage
  cases hf : s.usage.find? (fun u => u.date == date) with
  | none => rfl
  | some daily =>
    rw [hf] at h
    simp only [Option.some_bind] at h
    simp only [hf, h]

/-- Witness for updateDomainUsage_noop_of_missing: no daily entry dated 5
exists, so an arbitrary updater leaves the demo storage untouched. -/
theorem updateDomainUsage_noop_witness :
    updateDomainUsage "b.test" 5 (fun u => { u with timeSpentSeconds := 999 })
      demoStorage0 = demoStorage0 :=
  updateDomainUsage_noop_of_missing "b.test" 5 demoStorage0 rfl _

/-- Helper: full evaluation of the flush-then-stop scenario.  Tracking starts
at instant 0 with an open session; the periodic flush at 30 s adds 30 to both
timeSpentSeconds and the open session durationSeconds and rebases startedAt;
the stop at 40 s adds the remaining 10 s to timeSpentSeconds but OVERWRITES
the session durationSeconds with 10. -/
theorem demoAfterFlushStop_usage_eval :
    getDomainUsage demoAfterFlushStop.storage "a.test" 0 =
      some ⟨"a.test", 40, 1, [⟨0, some 40000, 10⟩], 0, 60, "00:00", ⟨false⟩, false, none⟩ := by
  norm_num [demoAfterFlushStop, demoState0, demoStorage0, demoTracking0, demoUsage0,
    demoCfg, demoSettings, stopTracking, flushActiveTrackingImpl, flushEntries,
    flushUpdater, alistGet, alistSet, updateFirst, getDomainConfig, getDomainUsage,
    getDailyUsage, updateDomainUsage, getCurrentPeriodDate, getEffectiveResetTime,
    parseTimeString, digitVal, JSTime.epochMs, JSTime.weekday, closeLastOpenSession,
    clearTrackingAlarms, List.find?]

/-- C1: stopTracking does NOT add the elapsed seconds to the existing
durationSeconds of the session it closes; it overwrites the field, so a
session partially flushed earlier loses the flushed portion.  In the concrete
run the pre-stop session duration was 30 (flushed) and elapsed was 10: the
source leaves 10 where additive accumulation would leave 40. -/
theorem stopTracking_overwrites_session_duration :
    (getDomainUsage demoAfterFlushStop.storage "a.test" 0).map
      (fun u => u.sessions.map (fun s => s.durationSeconds)) = some [10] ∧
    (getDomainUsage demoAfterFlushStop.storage "a.test" 0).map
      (fun u => u.sessions.map (fun s => s.durationSeconds)) ≠ some [30 + 10] := by
  rw [demoAfterFlushStop_usage_eval]
  constructor
  · rfl
  · intro hcontra
    norm_num at hcontra

/-- C2: after a periodic flush followed by a stopTracking, the sum of closed
session durations (10) no longer equals timeSpentSeconds (40): the sum
invariant claimed by the specification is broken by the overwriting stop. -/
theorem flush_then_stop_breaks_sum_invariant :
    (getDomainUsage demoAfterFlushStop.storage "a.test" 0).map
      (fun u => (u.timeSpentSeconds, closedSessionDurationSum u,
        u.sessions.all (fun s => s.endTime.isSome))) = some (40, 10, true) ∧
    ¬((10 : ℚ) = 40) := by
  rw [demoAfterFlushStop_usage_eval]
  refine ⟨?_, by norm_num⟩
  norm_num [closedSessionDurationSum]

/-- C3: for a configured hostname whose period usage exists, the status query
returns timeRemainingSeconds computed as max(0, limitSeconds minus the live
time spent), where limitSeconds is the frozen per-period snapshot of the
usage entry and the time spent adds the live elapsed of any current tracking
run; the query leaves the engine state untouched (no storage mutation). -/
theorem getStatusForDomain_spec (domain : String) (now : JSTime)
    (st : EngineState) (config : DomainConfig) (u : DomainUsage)
    (hc : getDomainConfig st.storage domain = some config)
    (hu : getDomainUsage st.storage domain
      (getCurrentPeriodDate config st.storage.settings.resetTime now) = some u) :
    (getStatusForDomain domain now st).1 = st ∧
    (getStatusForDomain domain now st).2.timeRemainingSeconds =
      Int.floor (max 0 (u.limitSeconds -
        (u.timeSpentSeconds + liveElapsed st domain now.epochMs))) ∧
    (getStatusForDomain domain now st).2.timeSpentSeconds =
      Int.floor (u.timeSpentSeconds + liveElapsed st domain now.epochMs) ∧
    (getStatusForDomain domain now st).2.limitSeconds = u.limitSeconds := by
  simp only [getStatusForDomain, hc, hu, liveElapsed, Option.map_some,
    Option.getD_some]
  refine ⟨trivial, ?_, ?_, ?_⟩ <;>
    cases (alistGet st.activeTracking domain).bind (fun tr => tr.startedAt) <;> rfl

/-- Witness for getStatusForDomain_spec on demoState0 at 30 s: the query is
mutation-free and reports floor values of the live quantities. -/
theorem getStatusForDomain_spec_witness :
    (getStatusForDomain "a.test" ⟨0, 30000⟩ demoState0).1 = demoState0 ∧
    (getStatusForDomain "a.test" ⟨0, 30000⟩ demoState0).2.timeRemainingSeconds =
      Int.floor (max 0 (demoUsage0.limitSeconds - (demoUsage0.timeSpentSeconds +
        liveElapsed demoState0 "a.test" (JSTime.epochMs ⟨0, 30000⟩)))) ∧
    (getStatusForDomain "a.test" ⟨0, 30000⟩ demoState0).2.timeSpentSeconds =
      Int.floor (demoUsage0.timeSpentSeconds +
        liveElapsed demoState0 "a.test" (JSTime.epochMs ⟨0, 30000⟩)) ∧
    (getStatusForDomain "a.test" ⟨0, 30000⟩ demoState0).2.limitSeconds =
      demoUsage0.limitSeconds :=
  getStatusForDomain_spec "a.test" ⟨0, 30000⟩ demoState0 demoCfg demoUsage0 rfl rfl

/-- Helper: looking up the key just written by alistSet yields the new
value. -/
theorem alistGet_alistSet_self {α : Type} (l : List (String × α)) (k : String)
    (v : α) : alistGet (alistSet l k v) k = some v := by
  induction l with
  | nil => simp [alistSet, alistGet, updateFirst]
  | cons x xs ih =>
    by_cases hx : x.1 = k
    · simp [alistSet, alistGet, updateFirst, List.find?_cons, hx]
    · have hx' : (x.1 == k) = false := by simp [hx]
      by_cases hf : (List.find? (fun e => e.1 == k) xs).isSome = true
      · have hset : alistSet (x :: xs) k v =
            x :: updateFirst (fun e => e.1 == k) (fun e => (e.1, v)) xs := by
          simp [alistSet, List.find?_cons, hx', hf, updateFirst]
        have hxs : alistSet xs k v =
            updateFirst (fun e => e.1 == k) (fun e => (e.1, v)) xs := by
          simp [alistSet, hf]
        rw [hset]
        rw [hxs] at ih
        simpa [alistGet, List.find?_cons, hx'] using ih
      · have hset : alistSet (x :: xs) k v = x :: (xs ++ [(k, v)]) := by
          simp [alistSet, List.find?_cons, hx', hf]
        have hxs : alistSet xs k v = xs ++ [(k, v)] := by
          simp [alistSet, hf]
        rw [hset]
        rw [hxs] at ih
        simpa [alistGet, List.find?_cons, hx'] using ih

/-- Helper: stopTracking never touches the runtime pause map. -/
theorem stopTracking_pausedDomains (d : String) (n : JSTime) (st : EngineState) :
    (stopTracking d n st).pausedDomains = st.pausedDomains := by
  unfold stopTracking
  cases h1 : alistGet st.activeTracking d with
  | none => rfl
  | some tr =>
    cases h2 : tr.startedAt with
    | none => simp only [h2]
    | some t0 =>
      simp only [h2]
      cases h3 : getDomainConfig st.storage d with
      | none => simp only [h3]
      | some config => simp only [h3]

/-- C4: for an enabled, non-blocked, not currently paused hostname, a pause
toggle with no remaining allowance fails with success=false and leaves the
whole engine state (runtime pause map and stored usage included) unchanged;
with positive remaining allowance it pauses, records the runtime entry and
schedules the pause-end alarm at now plus the remaining allowance in
milliseconds. -/
theorem togglePause_spec (domain : String) (now : JSTime) (st : EngineState)
    (config : DomainConfig) (used : ℚ)
    (hc : getDomainConfig st.storage domain = some config)
    (hen : config.enabled = true)
    (hnb : ((getDomainUsage st.storage domain
      (getCurrentPeriodDate config st.storage.settings.resetTime now)).map
      (fun u => u.blocked)).getD false = false)
    (hnp : alistGet st.pausedDomains domain = none)
    (hused : ((getDomainUsage st.storage domain
      (getCurrentPeriodDate config st.storage.settings.resetTime now)).map
      (fun u => u.pausedSeconds)).getD 0 = used) :
    (config.pauseAllowanceSeconds - used ≤ 0 →
      togglePause domain now st = (st, ⟨false, false, 0⟩)) ∧
    (0 < config.pauseAllowanceSeconds - used →
      (togglePause domain now st).2 =
        ⟨true, true, Int.floor (config.pauseAllowanceSeconds - used)⟩ ∧
      alistGet (togglePause domain now st).1.pausedDomains domain =
        some ⟨now.epochMs, used, config.pauseAllowanceSeconds⟩ ∧
      (⟨"pause-end-" ++ domain,
        (now.epochMs : ℚ) + (config.pauseAllowanceSeconds - used) * 1000⟩ : AlarmInfo) ∈
        (togglePause domain now st).1.alarms) := by
  constructor
  · intro hle
    simp only [togglePause, hc, hen, Bool.not_true, Bool.false_eq_true, if_false,
      hnb, hused, hnp, if_pos hle]
  · intro hlt
    have hne : ¬(config.pauseAllowanceSeconds - used ≤ 0) := not_le.mpr hlt
    simp only [togglePause, hc, hen, Bool.not_true, Bool.false_eq_true, if_false,
      hnb, hused, hnp, if_neg hne]
    have h1 : (match alistGet st.activeTracking domain with
        | some tr => if tr.startedAt.isSome = true then stopTracking domain now st else st
        | none => st).pausedDomains = st.pausedDomains := by
      cases alistGet st.activeTracking domain with
      | none => rfl
      | some tr =>
        by_cases hs : tr.startedAt.isSome = true <;>
          simp [hs, stopTracking_pausedDomains]
    refine ⟨trivial, ?_, ?_⟩
    · rw [h1]
      exact alistGet_alistSet_self st.pausedDomains domain _
    · exact List.mem_append_right _ (List.mem_singleton_self _)

/-- Witness for togglePause_spec: pausing a.test with full allowance (300 s
remaining) succeeds, records the runtime entry and schedules the pause-end
alarm 300000 ms out. -/
theorem togglePause_spec_witness :
    (togglePause "a.test" ⟨0, 0⟩ demoStateNoUsage).2 =
      ⟨true, true, Int.floor (demoCfg.pauseAllowanceSeconds - 0)⟩ ∧
    alistGet (togglePause "a.test" ⟨0, 0⟩ demoStateNoUsage).1.pausedDomains "a.test" =
      some ⟨JSTime.epochMs ⟨0, 0⟩, 0, demoCfg.pauseAllowanceSeconds⟩ ∧
    (⟨"pause-end-" ++ "a.test",
      ((JSTime.epochMs ⟨0, 0⟩ : Int) : ℚ) + (demoCfg.pauseAllowanceSeconds - 0) * 1000⟩ :
      AlarmInfo) ∈ (togglePause "a.test" ⟨0, 0⟩ demoStateNoUsage).1.alarms :=
  (togglePause_spec "a.test" ⟨0, 0⟩ demoStateNoUsage demoCfg 0
    rfl rfl rfl rfl rfl).2 (by norm_num [demoCfg])

/-- Helper: searching by one key after replacing the first element with
another key, when the replacement preserves keys: searching the written key
sees the image, searching any other key is unaffected. -/
theorem find?_updateFirst {α β : Type} [DecidableEq β] [BEq β] [LawfulBEq β]
    (key : α → β) (k k2 : β) (f : α → α) (hf : ∀ x, key (f x) = key x)
    (l : List α) :
    (updateFirst (fun a => key a == k2) f l).find? (fun a => key a == k) =
      if k = k2 then (l.find? (fun a => key a == k)).map f
      else l.find? (fun a => key a == k) := by
  induction l with
  | nil => by_cases hk : k = k2 <;> simp [updateFirst, hk]
  | cons x xs ih =>
    by_cases h2 : key x = k2
    · have hpx : (key x == k2) = true := by simp [h2]
      simp only [updateFirst, hpx, if_true]
      by_cases hk : k = k2
      · subst hk
        have hfx : (key (f x) == k) = true := by simp [hf, h2]
        have hx : (key x == k) = true := by simp [h2]
        simp [List.find?_cons, hfx, hx]
      · have hxk : ¬(key x = k) := by
          intro he
          exact hk (by rw [← he, h2])
        have hfx : (key (f x) == k) = false := by simp [hf, hxk]
        have hx : (key x == k) = false := by simp [hxk]
        simp [List.find?_cons, hfx, hx, if_neg hk]
    · have hpx : (key x == k2) = false := by simp [h2]
      simp only [updateFirst, hpx, Bool.false_eq_true, if_false]
      by_cases hxk : key x = k
      · have hk2 : ¬(k = k2) := by
          intro he
          exact h2 (by rw [hxk, he])
        have hx : (key x == k) = true := by simp [hxk]
        simp [List.find?_cons, hx, if_neg hk2]
      · have hx : (key x == k) = false := by simp [hxk]
        simp [List.find?_cons, hx, ih]

/-- Helper: find? returns the unique element satisfying the predicate. -/
theorem find?_eq_some_of_unique {α : Type} (p : α → Bool) (l : List α) (x : α)
    (hx : x ∈ l) (hpx : p x = true)
    (huniq : ∀ y ∈ l, p y = true → y = x) : l.find? p = some x := by
  induction l with
  | nil => cases hx
  | cons a as ih =>
    by_cases hpa : p a = true
    · have : a = x := huniq a (List.mem_cons_self a as) hpa
      subst this
      simp [List.find?_cons, hpa]
    · have hpa' : p a = false := by simpa using hpa
      have hax : x ∈ as := by
        rcases List.mem_cons.mp hx with h | h
        · subst h; exact absurd hpx hpa
        · exact h
      simp only [List.find?_cons, hpa', Bool.false_eq_true, if_false]
      exact ih hax (fun y hy hp => huniq y (List.mem_cons_of_mem a hy) hp)

/-- Helper: the configuration found for a hostname carries that hostname. -/
theorem getDomainConfig_domain_eq (s : StorageSchema) (d : String)
    (config : DomainConfig) (h : getDomainConfig s d = some config) :
    config.domain = d := by
  unfold getDomainConfig at h
  have := List.find?_some h
  simpa using this

/-- Helper: when the period usage entry already exists, the upsert returns it
with the storage unchanged. -/
theorem getOrCreateDomainUsage_of_found (config : DomainConfig)
    (settings : GlobalSettings) (now : JSTime) (s : StorageSchema)
    (du : DomainUsage)
    (h : getDomainUsage s config.domain
      (getCurrentPeriodDate config settings.resetTime now) = some du) :
    getOrCreateDomainUsage config settings now s =
      ⟨s, du, getCurrentPeriodDate config settings.resetTime now, false⟩ := by
  unfold getDomainUsage getDailyUsage at h
  unfold getOrCreateDomainUsage
  cases hf : s.usage.find?
      (fun u => u.date == getCurrentPeriodDate config settings.resetTime now) with
  | none => rw [hf] at h; cases h
  | some daily =>
    rw [hf] at h
    simp only [Option.some_bind] at h
    simp only [hf, h]

/-- Helper: when the daily entry exists but the domain entry is missing, the
upsert appends the fresh snapshot to that daily entry; lookups see the fresh
snapshot exactly at the created coordinates and are otherwise unchanged. -/
theorem getOrCreateDomainUsage_lookup_dailyFound (config : DomainConfig)
    (settings : GlobalSettings) (now : JSTime) (s : StorageSchema)
    (date : Int) (daily : DailyUsage)
    (hdate : date = getCurrentPeriodDate config settings.resetTime now)
    (hf : s.usage.find? (fun u => u.date == date) = some daily)
    (hm : daily.domains.find? (fun d => d.domain == config.domain) = none) :
    ∀ d' p', getDomainUsage (getOrCreateDomainUsage config settings now s).storage d' p' =
      if p' = date ∧ d' = config.domain then some (newDomainUsage config settings now)
      else getDomainUsage s d' p' := by
  subst hdate
  intro d' p'
  unfold getOrCreateDomainUsage
  simp only [hf, hm]
  unfold getDomainUsage getDailyUsage
  rw [find?_updateFirst (fun u : DailyUsage => u.date) p'
    (getCurrentPeriodDate config settings.resetTime now)
    (appendDomain (newDomainUsage config settings now))
    (fun x => rfl) s.usage]
  by_cases hp : p' = getCurrentPeriodDate config settings.resetTime now
  · rw [if_pos hp]
    subst hp
    rw [hf]
    simp only [Option.map_some', Option.some_bind, appendDomain]
    rw [List.find?_append]
    by_cases hd : d' = config.domain
    · subst hd
      rw [hm]
      simp [newDomainUsage]
    · have : ((newDomainUsage config settings now).domain == d') = false := by
        simp [newDomainUsage]
        intro hcontra
        exact hd hcontra.symm
      simp only [List.find?_cons, this, Bool.false_eq_true, if_false, List.find?_nil,
        Option.or_none]
      rw [if_neg (fun hand => hd hand.2)]
  · rw [if_neg hp, if_neg (fun hand => hp hand.1)]

/-- Helper: shape of the capped pushed log when a fresh daily entry is
appended: the cap only ever shifts old entries off the head, never the fresh
tail entry. -/
theorem capUsageLog_append (l : List DailyUsage) (x : DailyUsage) :
    capUsageLog (l ++ [x]) = l.drop ((l ++ [x]).length - MAX_USAGE_DAYS) ++ [x] := by
  unfold capUsageLog
  have hle : (l ++ [x]).length - MAX_USAGE_DAYS ≤ l.length := by
    simp only [List.length_append, List.length_singleton, MAX_USAGE_DAYS]
    omega
  exact List.drop_append_of_le_length hle

/-- Helper: when no daily entry exists for the period date, the upsert pushes
a fresh daily entry, caps, sorts, and stores the fresh snapshot in it.  At
the created coordinates the lookup returns the fresh snapshot; at any other
date, on a duplicate-free log, a successful lookup returns an entry the
original storage already held. -/
theorem getOrCreateDomainUsage_lookup_dailyMissing (config : DomainConfig)
    (settings : GlobalSettings) (now : JSTime) (s : StorageSchema) (date : Int)
    (hdate : date = getCurrentPeriodDate config settings.resetTime now)
    (hf : s.usage.find? (fun u => u.date == date) = none) :
    (∀ d', getDomainUsage (getOrCreateDomainUsage config settings now s).storage d' date =
      if d' = config.domain then some (newDomainUsage config settings now) else none) ∧
    ((s.usage.map (fun u => u.date)).Nodup → ∀ d' p', p' ≠ date → ∀ u',
      getDomainUsage (getOrCreateDomainUsage config settings now s).storage d' p' = some u' →
      getDomainUsage s d' p' = some u') := by
  subst hdate
  set date := getCurrentPeriodDate config settings.resetTime now with hdate
  have hnotmem : ∀ y ∈ s.usage, ¬(y.date = date) := by
    intro y hy he
    have := List.find?_eq_none.mp hf y hy
    simp [he] at this
  set fresh : DailyUsage := ⟨date, []⟩ with hfresh
  set capped := capUsageLog (s.usage ++ [fresh]) with hcapped
  set sorted := capped.insertionSort (fun a b => a.date ≤ b.date) with hsorted
  have hperm : sorted.Perm capped := List.perm_insertionSort _ _
  have hcapshape : capped = s.usage.drop ((s.usage ++ [fresh]).length - MAX_USAGE_DAYS) ++ [fresh] :=
    capUsageLog_append s.usage fresh
  have hmemcap : ∀ y ∈ capped, y ∈ s.usage ∨ y = fresh := by
    intro y hy
    rw [hcapshape] at hy
    rcases List.mem_append.mp hy with h | h
    · exact Or.inl (List.mem_of_mem_drop h)
    · exact Or.inr (List.mem_singleton.mp h)
  have hfreshmem : fresh ∈ sorted := by
    rw [hperm.mem_iff, hcapshape]
    exact List.mem_append_right _ (List.mem_singleton_self _)
  have hfind : sorted.find? (fun u => u.date == date) = some fresh := by
    apply find?_eq_some_of_unique
    · exact hfreshmem
    · simp
    · intro y hy hp
      rcases hmemcap y (hperm.mem_iff.mp hy) with h | h
      · exact absurd (by simpa using hp) (hnotmem y h)
      · exact h
  have hgoal : getOrCreateDomainUsage config settings now s =
      UpsertResult.mk
        { s with
          usage := updateFirst (fun u => u.date == date)
              (appendDomain (newDomainUsage config settings now)) sorted }
        (newDomainUsage config settings now) date true := by
    unfold getOrCreateDomainUsage
    simp only [← hdate, hf, ← hfresh, ← hcapped, ← hsorted]
  constructor
  · intro d'
    rw [hgoal]
    unfold getDomainUsage getDailyUsage
    simp only
    rw [find?_updateFirst (fun u : DailyUsage => u.date) date date
      (appendDomain (newDomainUsage config settings now))
      (fun x => rfl) sorted]
    rw [if_pos rfl, hfind]
    simp only [Option.map_some', Option.some_bind, appendDomain, List.nil_append]
    by_cases hd : d' = config.domain
    · subst hd
      simp [newDomainUsage]
    · have : ((newDomainUsage config settings now).domain == d') = false := by
        simp [newDomainUsage]
        intro hcontra
        exact hd hcontra.symm
      simp only [List.find?_cons, this, Bool.false_eq_true, if_false, List.find?_nil]
      rw [if_neg hd]
  · intro hnodup d' p' hp u' hlook
    rw [hgoal] at hlook
    unfold getDomainUsage getDailyUsage at hlook ⊢
    simp only at hlook
    rw [find?_updateFirst (fun u : DailyUsage => u.date) p' date
      (appendDomain (newDomainUsage config settings now))
      (fun x => rfl) sorted, if_neg hp] at hlook
    cases hdaily : sorted.find? (fun u => u.date == p') with
    | none => rw [hdaily] at hlook; cases hlook
    | some daily' =>
      rw [hdaily] at hlook
      have hd1 : daily' ∈ sorted := List.mem_of_find?_eq_some hdaily
      have hd2 := List.find?_some hdaily
      have hd2' : daily'.date = p' := by simpa using hd2
      have hd3 : daily' ∈ s.usage := by
        rcases hmemcap daily' (hperm.mem_iff.mp hd1) with h | h
        · exact h
        · exfalso
          apply hp
          rw [← hd2', h]
      have : s.usage.find? (fun u => u.date == p') = some daily' := by
        apply find?_eq_some_of_unique _ _ _ hd3 hd2
        intro y hy hpy
        have heq : y.date = daily'.date := by
          have h1 : y.date = p' := by simpa using hpy
          rw [h1, hd2']
        exact List.inj_on_of_nodup_map hnodup hy hd3 heq
      rw [this]
      exact hlook

/-- Helper: when the period usage entry is missing, the upsert returns the
fresh snapshot and stores it at the period coordinates. -/
theorem getOrCreateDomainUsage_of_missing (config : DomainConfig)
    (settings : GlobalSettings) (now : JSTime) (s : StorageSchema)
    (h : getDomainUsage s config.domain
      (getCurrentPeriodDate config settings.resetTime now) = none) :
    (getOrCreateDomainUsage config settings now s).usage =
      newDomainUsage config settings now ∧
    getDomainUsage (getOrCreateDomainUsage config settings now s).storage
      config.domain (getCurrentPeriodDate config settings.resetTime now) =
      some (newDomainUsage config settings now) := by
  unfold getDomainUsage getDailyUsage at h
  cases hf : s.usage.find?
      (fun u => u.date == getCurrentPeriodDate config settings.resetTime now) with
  | none =>
    have hlm := getOrCreateDomainUsage_lookup_dailyMissing config settings now s
      (getCurrentPeriodDate config settings.resetTime now) rfl hf
    constructor
    · unfold getOrCreateDomainUsage
      simp only [hf]
    · have := hlm.1 config.domain
      rw [if_pos rfl] at this
      exact this
  | some daily =>
    rw [hf] at h
    simp only [Option.some_bind] at h
    have hlf := getOrCreateDomainUsage_lookup_dailyFound config settings now s
      (getCurrentPeriodDate config settings.resetTime now) daily rfl hf h
    constructor
    · unfold getOrCreateDomainUsage
      simp only [hf, h]
    · have := hlf config.domain (getCurrentPeriodDate config settings.resetTime now)
      rw [if_pos ⟨rfl, rfl⟩] at this
      exact this

/-- C8: startTracking aborts, leaving the runtime tracking map and the alarm
table unchanged and appending no session, whenever the configuration is
missing or disabled, the current period usage is blocked, or the hostname is
inside its grace window; in the first four cases the whole engine state is
returned untouched, and in the grace case with no existing period entry the
lazily created entry holds no session.  In particular tracking never turns ON
for a hostname whose current period is blocked. -/
theorem startTracking_abort_spec (domain : String) (reason : Reason)
    (now : JSTime) (st : EngineState) :
    (getDomainConfig st.storage domain = none →
      startTracking domain reason now st = st) ∧
    (∀ config, getDomainConfig st.storage domain = some config →
      config.enabled = false → startTracking domain reason now st = st) ∧
    (∀ config u, getDomainConfig st.storage domain = some config →
      config.enabled = true →
      getDomainUsage st.storage domain
        (getCurrentPeriodDate config st.storage.settings.resetTime now) = some u →
      u.blocked = true → startTracking domain reason now st = st) ∧
    (∀ config u e, getDomainConfig st.storage domain = some config →
      config.enabled = true →
      getDomainUsage st.storage domain
        (getCurrentPeriodDate config st.storage.settings.resetTime now) = some u →
      u.blocked = false → alistGet st.graceEndsAt domain = some e → e ≠ 0 →
      now.epochMs < e → startTracking domain reason now st = st) ∧
    (∀ config e, getDomainConfig st.storage domain = some config →
      config.enabled = true →
      getDomainUsage st.storage domain
        (getCurrentPeriodDate config st.storage.settings.resetTime now) = none →
      alistGet st.graceEndsAt domain = some e → e ≠ 0 → now.epochMs < e →
      ((startTracking domain reason now st).activeTracking = st.activeTracking ∧
       (startTracking domain reason now st).alarms = st.alarms ∧
       ((getDomainUsage (startTracking domain reason now st).storage domain
         (getCurrentPeriodDate config st.storage.settings.resetTime now)).map
         (fun u => u.sessions)).getD [] = [])) := by
  refine ⟨?_, ?_, ?_, ?_, ?_⟩
  · intro hc
    unfold startTracking
    cases h1 : alistGet st.activeTracking domain with
    | none => rfl
    | some tr => simp only [hc]
  · intro config hc hen
    unfold startTracking
    cases h1 : alistGet st.activeTracking domain with
    | none => rfl
    | some tr =>
      simp only [hc, hen, Bool.not_false, if_true]
  · intro config u hc hen hu hb
    have hdom : config.domain = domain := getDomainConfig_domain_eq _ _ _ hc
    rw [← hdom] at hu
    have hup := getOrCreateDomainUsage_of_found config st.storage.settings now
      st.storage u hu
    unfold startTracking
    cases h1 : alistGet st.activeTracking domain with
    | none => rfl
    | some tr =>
      simp only [hc, hen, Bool.not_true, Bool.false_eq_true, if_false, hup, hb,
        if_true]
  · intro config u e hc hen hu hb hge he0 hlt
    have hdom : config.domain = domain := getDomainConfig_domain_eq _ _ _ hc
    rw [← hdom] at hu
    have hup := getOrCreateDomainUsage_of_found config st.storage.settings now
      st.storage u hu
    have hgr : isDomainInGracePeriod st.graceEndsAt domain now.epochMs =
        (true, st.graceEndsAt) := by
      unfold isDomainInGracePeriod
      rw [hge]
      have h0 : (e == 0) = false := by simp [he0]
      simp only [h0, Bool.false_eq_true, if_false, if_neg (not_le.mpr hlt)]
    unfold startTracking
    cases h1 : alistGet st.activeTracking domain with
    | none => rfl
    | some tr =>
      simp only [hc, hen, Bool.not_true, Bool.false_eq_true, if_false, hup, hb,
        hgr, if_true]
  · intro config e hc hen hu hge he0 hlt
    have hdom : config.domain = domain := getDomainConfig_domain_eq _ _ _ hc
    rw [← hdom] at hu
    have hup := getOrCreateDomainUsage_of_missing config st.storage.settings now
      st.storage hu
    have hup2 := hup.2
    rw [hdom] at hup2 hu
    have hgr : isDomainInGracePeriod st.graceEndsAt domain now.epochMs =
        (true, st.graceEndsAt) := by
      unfold isDomainInGracePeriod
      rw [hge]
      have h0 : (e == 0) = false := by simp [he0]
      simp only [h0, Bool.false_eq_true, if_false, if_neg (not_le.mpr hlt)]
    have hnb : (getOrCreateDomainUsage config st.storage.settings now st.storage).usage.blocked = false := by
      rw [hup.1]
      rfl
    unfold startTracking
    cases h1 : alistGet st.activeTracking domain with
    | none =>
      refine ⟨rfl, rfl, ?_⟩
      simp [hu]
    | some tr =>
      simp only [hc, hen, Bool.not_true, Bool.false_eq_true, if_false, hnb, hgr,
        if_true]
      refine ⟨trivial, trivial, ?_⟩
      simp only [hup2]
      rfl

/-- Witness for startTracking_abort_spec: with a.test blocked in period 0 and
a registered tab, startTracking returns the state untouched. -/
theorem startTracking_abort_spec_witness :
    startTracking "a.test" Reason.focused ⟨0, 1000⟩ demoStateBlocked =
      demoStateBlocked :=
  (startTracking_abort_spec "a.test" Reason.focused ⟨0, 1000⟩ demoStateBlocked).2.2.1
    demoCfg demoUsageBlocked rfl rfl rfl rfl

/-- C7 counterexample: on a full log holding the thirty dates 2 through 31, an
upsert that creates period date 1 evicts the entry dated 2 and keeps the
strictly older new entry dated 1 — so the evicted entry is NOT the one with
the oldest date, refuting the eviction clause of the claim as stated. -/
theorem usageLog_eviction_counterexample :
    ((getOrCreateDomainUsage demoCfg demoSettings ⟨1, 0⟩ demoStorageC7).storage.usage.map
      (fun u => u.date)) = (1 : Int) :: (List.range 29).map (fun i => (i : Int) + 3) ∧
    (getDailyUsage demoStorageC7 2).isSome = true ∧
    getDailyUsage (getOrCreateDomainUsage demoCfg demoSettings ⟨1, 0⟩ demoStorageC7).storage
      2 = none ∧
    (1 : Int) < 2 := by
  refine ⟨by decide, by decide, by decide, by decide⟩

/-- Helper: updateFirst with a key-preserving replacement leaves the mapped
keys unchanged. -/
theorem map_updateFirst {α β : Type} (key : α → β) (p : α → Bool) (f : α → α)
    (hf : ∀ x, key (f x) = key x) (l : List α) :
    (updateFirst p f l).map key = l.map key := by
  induction l with
  | nil => rfl
  | cons x xs ih =>
    by_cases hp : p x = true
    · simp [updateFirst, hp, hf]
    · have hp' : p x = false := by simpa using hp
      simp [updateFirst, hp', ih]

/-- C7 amended: on a usage log sorted strictly by date with at most thirty
entries, the period upsert keeps the log sorted strictly ascending (hence
with distinct dates) and at most thirty entries long, and any date evicted by
the cap is the oldest PREVIOUSLY STORED date — which is the oldest date
overall except when the newly created period date is older than every stored
date, as in the recorded counterexample. -/
theorem getOrCreateDomainUsage_log_invariants (config : DomainConfig)
    (settings : GlobalSettings) (now : JSTime) (s : StorageSchema)
    (hsort : (s.usage.map (fun u => u.date)).Pairwise (· < ·))
    (hlen : s.usage.length ≤ MAX_USAGE_DAYS) :
    ((getOrCreateDomainUsage config settings now s).storage.usage.map
      (fun u => u.date)).Pairwise (· < ·) ∧
    (getOrCreateDomainUsage config settings now s).storage.usage.length ≤
      MAX_USAGE_DAYS ∧
    (∀ p, p ∈ s.usage.map (fun u => u.date) →
      p ∉ (getOrCreateDomainUsage config settings now s).storage.usage.map
        (fun u => u.date) →
      ∀ q ∈ s.usage.map (fun u => u.date), p ≤ q) := by
  set date := getCurrentPeriodDate config settings.resetTime now with hdate
  cases hf : s.usage.find? (fun u => u.date == date) with
  | some daily =>
    cases hm : daily.domains.find? (fun d => d.domain == config.domain) with
    | some du =>
      have hres : getOrCreateDomainUsage config settings now s = ⟨s, du, date, false⟩ := by
        unfold getOrCreateDomainUsage
        simp only [← hdate, hf, hm]
      rw [hres]
      exact ⟨hsort, hlen, fun p hp hnp q hq => absurd hp hnp⟩
    | none =>
      have hres : (getOrCreateDomainUsage config settings now s).storage.usage =
          updateFirst (fun u => u.date == date)
            (appendDomain (newDomainUsage config settings now)) s.usage := by
        unfold getOrCreateDomainUsage
        simp only [← hdate, hf, hm]
      have hmap : (getOrCreateDomainUsage config settings now s).storage.usage.map
          (fun u => u.date) = s.usage.map (fun u => u.date) := by
        rw [hres]
        exact map_updateFirst (fun u : DailyUsage => u.date) (fun u => u.date == date)
          (appendDomain (newDomainUsage config settings now)) (fun x => rfl) s.usage
      have hlen2 : (getOrCreateDomainUsage config settings now s).storage.usage.length =
          s.usage.length := by
        have h1 := congrArg List.length hmap
        simpa [List.length_map] using h1
      refine ⟨by rw [hmap]; exact hsort, by rw [hlen2]; exact hlen, ?_⟩
      intro p hp hnp q hq
      rw [hmap] at hnp
      exact absurd hp hnp
  | none =>
    set fresh : DailyUsage := ⟨date, []⟩ with hfresh
    set kdrop := (s.usage ++ [fresh]).length - MAX_USAGE_DAYS with hkdrop
    set capped := capUsageLog (s.usage ++ [fresh]) with hcapped
    set sorted := capped.insertionSort (fun a b => a.date ≤ b.date) with hsorted
    have hres : (getOrCreateDomainUsage config settings now s).storage.usage =
        updateFirst (fun u => u.date == date)
          (appendDomain (newDomainUsage config settings now)) sorted := by
      unfold getOrCreateDomainUsage
      simp only [← hdate, hf, ← hfresh, ← hcapped, ← hsorted]
    have hmap : (getOrCreateDomainUsage config settings now s).storage.usage.map
        (fun u => u.date) = sorted.map (fun u => u.date) := by
      rw [hres]
      exact map_updateFirst (fun u : DailyUsage => u.date) (fun u => u.date == date)
        (appendDomain (newDomainUsage config settings now)) (fun x => rfl) sorted
    have hperm : sorted.Perm capped := List.perm_insertionSort _ _
    have hcapshape : capped = s.usage.drop kdrop ++ [fresh] := by
      rw [hcapped, hkdrop]
      exact capUsageLog_append s.usage fresh
    have hnotmem : date ∉ s.usage.map (fun u => u.date) := by
      intro hmem
      rcases List.mem_map.mp hmem with ⟨y, hy, hyd⟩
      have := List.find?_eq_none.mp hf y hy
      simp [hyd] at this
    have hnodup_push : ((s.usage ++ [fresh]).map (fun u => u.date)).Nodup := by
      rw [List.map_append, List.nodup_append]
      refine ⟨List.Pairwise.imp (fun hab => ne_of_lt hab) hsort, by simp, ?_⟩
      intro a ha hb
      have hb' : a = date := by simpa [hfresh] using hb
      rw [hb'] at ha
      exact hnotmem ha
    have hsub : capped.Sublist (s.usage ++ [fresh]) := by
      rw [hcapped]
      unfold capUsageLog
      exact List.drop_sublist _ _
    have hnodup_capped : (capped.map (fun u => u.date)).Nodup :=
      List.Nodup.sublist (hsub.map _) hnodup_push
    have hnodup_sorted : (sorted.map (fun u => u.date)).Nodup :=
      ((hperm.map _).nodup_iff).mpr hnodup_capped
    have hsorted_le : (sorted.map (fun u => u.date)).Pairwise (· ≤ ·) := by
      rw [List.pairwise_map]
      exact List.sorted_insertionSort _ capped
    have hstrict : (sorted.map (fun u => u.date)).Pairwise (· < ·) := by
      have hand := List.Pairwise.and hsorted_le hnodup_sorted
      exact hand.imp (fun hab => lt_of_le_of_ne hab.1 hab.2)
    refine ⟨by rw [hmap]; exact hstrict, ?_, ?_⟩
    · have hlnew : (getOrCreateDomainUsage config settings now s).storage.usage.length =
          sorted.length := by
        have h1 := congrArg List.length hmap
        simpa [List.length_map] using h1
      rw [hlnew, hperm.length_eq]
      have h3 : capped.length = (s.usage ++ [fresh]).length - kdrop := by
        rw [hcapped, hkdrop]
        unfold capUsageLog
        exact List.length_drop _ _
      have hlenp : (s.usage ++ [fresh]).length = s.usage.length + 1 := by simp
      rw [h3, hkdrop, hlenp]
      simp only [MAX_USAGE_DAYS]
      omega
    · intro p hp hnp q hq
      rw [hmap] at hnp
      have hnp2 : p ∉ capped.map (fun u => u.date) := fun hmem =>
        hnp (((hperm.map _).mem_iff).mpr hmem)
      rcases List.mem_map.mp hp with ⟨y, hy, hyd⟩
      have hyn : y ∉ s.usage.drop kdrop := by
        intro hcontra
        apply hnp2
        rw [hcapshape, List.map_append]
        exact List.mem_append_left _ (List.mem_map.mpr ⟨y, hcontra, hyd⟩)
      have hytake : y ∈ s.usage.take kdrop := by
        have hsplit := List.take_append_drop kdrop s.usage
        have hmem : y ∈ s.usage.take kdrop ++ s.usage.drop kdrop := by
          rw [hsplit]
          exact hy
        rcases List.mem_append.mp hmem with h | h
        · exact h
        · exact absurd h hyn
      have hk1 : kdrop ≤ 1 := by
        have hlenp : (s.usage ++ [fresh]).length = s.usage.length + 1 := by simp
        have hlen30 : s.usage.length ≤ 30 := by simpa [MAX_USAGE_DAYS] using hlen
        rw [hkdrop, hlenp]
        simp only [MAX_USAGE_DAYS]
        omega
      cases hcase : s.usage with
      | nil =>
        rw [hcase] at hytake
        simp at hytake
      | cons a t =>
        have hy_eq : y = a := by
          rw [hcase] at hytake
          rcases Nat.lt_or_ge kdrop 1 with hzero | hone
          · interval_cases kdrop
            simp at hytake
          · have hkone : kdrop = 1 := le_antisymm hk1 hone
            rw [hkone] at hytake
            simpa using hytake
        rw [hcase, List.map_cons] at hq hsort
        rw [hy_eq] at hyd
        rcases List.mem_cons.mp hq with h | h
        · rw [← hyd, h]
        · have := (List.pairwise_cons.mp hsort).1 q h
          rw [← hyd]
          exact le_of_lt this

/-- Witness for getOrCreateDomainUsage_log_invariants on the one-entry demo
log: after creating the period dated 1 the log is still strictly sorted and
within the cap. -/
theorem getOrCreateDomainUsage_log_invariants_witness :
    (((getOrCreateDomainUsage demoCfg demoSettings ⟨1, 0⟩ demoStorage0).storage.usage.map
      (fun u => u.date)).Pairwise (· < ·)) ∧
    (getOrCreateDomainUsage demoCfg demoSettings ⟨1, 0⟩ demoStorage0).storage.usage.length ≤
      MAX_USAGE_DAYS :=
  ⟨(getOrCreateDomainUsage_log_invariants demoCfg demoSettings ⟨1, 0⟩ demoStorage0
      (by decide) (by decide)).1,
   (getOrCreateDomainUsage_log_invariants demoCfg demoSettings ⟨1, 0⟩ demoStorage0
      (by decide) (by decide)).2.1⟩

/-- Helper: lookup through updateDomainUsage.  Writes through a
domain-preserving updater touch exactly the addressed entry; every other
lookup is unchanged, and a missing address makes the write a no-op. -/
theorem getDomainUsage_updateDomainUsage (domain : String) (date : Int)
    (f : DomainUsage → DomainUsage) (s : StorageSchema)
    (hdom : ∀ u, (f u).domain = u.domain) :
    ∀ d' p', getDomainUsage (updateDomainUsage domain date f s) d' p' =
      if p' = date ∧ d' = domain then (getDomainUsage s d' p').map f
      else getDomainUsage s d' p' := by
  intro d' p'
  unfold updateDomainUsage
  cases hf : s.usage.find? (fun u => u.date == date) with
  | none =>
    by_cases hc : p' = date ∧ d' = domain
    · rw [if_pos hc]
      unfold getDomainUsage getDailyUsage
      rw [hc.1, hf]
      rfl
    · rw [if_neg hc]
  | some daily =>
    cases hm : daily.domains.find? (fun d => d.domain == domain) with
    | none =>
      simp only [hm]
      by_cases hc : p' = date ∧ d' = domain
      · rw [if_pos hc]
        unfold getDomainUsage getDailyUsage
        rw [hc.1, hc.2, hf]
        simp [hm]
      · rw [if_neg hc]
    | some du =>
      simp only [hm]
      unfold getDomainUsage getDailyUsage
      dsimp only
      rw [find?_updateFirst (fun u : DailyUsage => u.date) p' date
        (fun u => { u with domains := updateFirst (fun d => d.domain == domain) f u.domains })
        (fun x => rfl) s.usage]
      by_cases hp : p' = date
      · rw [if_pos hp]
        subst hp
        rw [hf]
        simp only [Option.map_some', Option.some_bind]
        rw [find?_updateFirst (fun d : DomainUsage => d.domain) d' domain f hdom
          daily.domains]
        by_cases hd : d' = domain
        · simp [hd, hf]
        · simp [hd, hf]
      · rw [if_neg hp, if_neg (fun hand => hp hand.1)]

/-- Helper: the frame relation is reflexive. -/
theorem framePreserved_refl (s : StorageSchema) : framePreserved s s := by
  intro d p u u' hb ha
  rw [hb] at ha
  cases ha
  exact ⟨rfl, rfl⟩

/-- Helper: a write through an updater that preserves domain, limitSeconds
and resetTime extends any frame-preserving step. -/
theorem framePreserved_of_update (s s1 : StorageSchema) (domain : String)
    (date : Int) (f : DomainUsage → DomainUsage)
    (h01 : framePreserved s s1)
    (hdom : ∀ u, (f u).domain = u.domain)
    (hlim : ∀ u, (f u).limitSeconds = u.limitSeconds)
    (hres : ∀ u, (f u).resetTime = u.resetTime) :
    framePreserved s (updateDomainUsage domain date f s1) := by
  intro d p u u' hb ha
  rw [getDomainUsage_updateDomainUsage domain date f s1 hdom d p] at ha
  by_cases hc : p = date ∧ d = domain
  · rw [if_pos hc] at ha
    rcases Option.map_eq_some'.mp ha with ⟨u1, hu1, hfu⟩
    have hmid := h01 d p u u1 hb hu1
    rw [← hfu, hlim, hres]
    exact hmid
  · rw [if_neg hc] at ha
    exact h01 d p u u' hb ha

/-- Helper: the period upsert preserves frozen snapshots of every entry
present before and after, on a duplicate-free log. -/
theorem framePreserved_getOrCreate (config : DomainConfig)
    (settings : GlobalSettings) (now : JSTime) (s : StorageSchema)
    (hnodup : (s.usage.map (fun u => u.date)).Nodup) :
    framePreserved s (getOrCreateDomainUsage config settings now s).storage := by
  intro d p u u' hb ha
  cases hf : s.usage.find?
      (fun x => x.date == getCurrentPeriodDate config settings.resetTime now) with
  | some daily =>
    cases hm : daily.domains.find? (fun x => x.domain == config.domain) with
    | some du =>
      have hres : getOrCreateDomainUsage config settings now s =
          ⟨s, du, getCurrentPeriodDate config settings.resetTime now, false⟩ := by
        unfold getOrCreateDomainUsage
        simp only [hf, hm]
      rw [hres] at ha
      rw [hb] at ha
      cases ha
      exact ⟨rfl, rfl⟩
    | none =>
      have hlk := getOrCreateDomainUsage_lookup_dailyFound config settings now s
        (getCurrentPeriodDate config settings.resetTime now) daily rfl hf hm d p
      rw [hlk] at ha
      by_cases hc : p = getCurrentPeriodDate config settings.resetTime now ∧
          d = config.domain
      · exfalso
        unfold getDomainUsage getDailyUsage at hb
        rw [hc.1, hc.2, hf] at hb
        simp only [Option.some_bind, hm] at hb
        cases hb
      · rw [if_neg hc] at ha
        rw [hb] at ha
        cases ha
        exact ⟨rfl, rfl⟩
  | none =>
    have hlm := getOrCreateDomainUsage_lookup_dailyMissing config settings now s
      (getCurrentPeriodDate config settings.resetTime now) rfl hf
    by_cases hp : p = getCurrentPeriodDate config settings.resetTime now
    · exfalso
      unfold getDomainUsage getDailyUsage at hb
      rw [hp, hf] at hb
      cases hb
    · have hback := hlm.2 hnodup d p hp u' ha
      rw [hb] at hback
      cases hback
      exact ⟨rfl, rfl⟩

/-- Helper: closing a session never touches domain, limitSeconds or
resetTime. -/
theorem closeLastOpenSession_fields (u : DomainUsage) (n : Int) (e : ℚ) :
    (closeLastOpenSession u n e).domain = u.domain ∧
    (closeLastOpenSession u n e).limitSeconds = u.limitSeconds ∧
    (closeLastOpenSession u n e).resetTime = u.resetTime := by
  unfold closeLastOpenSession
  cases u.sessions.getLast? with
  | none => exact ⟨rfl, rfl, rfl⟩
  | some last =>
    by_cases h : last.endTime = none
    · simp [h]
    · simp [h]

/-- Helper: the flush updater never touches domain, limitSeconds or
resetTime. -/
theorem flushUpdater_fields (e : ℚ) (u : DomainUsage) :
    (flushUpdater e u).domain = u.domain ∧
    (flushUpdater e u).limitSeconds = u.limitSeconds ∧
    (flushUpdater e u).resetTime = u.resetTime := by
  unfold flushUpdater
  dsimp only
  cases u.sessions.getLast? with
  | none => exact ⟨rfl, rfl, rfl⟩
  | some last =>
    by_cases h : last.endTime = none
    · simp [h]
    · simp [h]

/-- Helper: startTracking preserves frozen snapshots. -/
theorem frame_startTracking (domain : String) (reason : Reason) (now : JSTime)
    (st : EngineState)
    (hnodup : (st.storage.usage.map (fun u => u.date)).Nodup) :
    framePreserved st.storage (startTracking domain reason now st).storage := by
  unfold startTracking
  cases h1 : alistGet st.activeTracking domain with
  | none => exact framePreserved_refl _
  | some tr =>
    cases h2 : getDomainConfig st.storage domain with
    | none => exact framePreserved_refl _
    | some config =>
      dsimp only
      split
      · exact framePreserved_refl _
      · split
        · exact framePreserved_getOrCreate _ _ _ _ hnodup
        · split
          · exact framePreserved_getOrCreate _ _ _ _ hnodup
          · exact framePreserved_of_update _ _ _ _ _
              (framePreserved_getOrCreate _ _ _ _ hnodup)
              (fun u => rfl) (fun u => rfl) (fun u => rfl)

/-- Helper: stopTracking preserves frozen snapshots. -/
theorem frame_stopTracking (domain : String) (now : JSTime) (st : EngineState) :
    framePreserved st.storage (stopTracking domain now st).storage := by
  unfold stopTracking
  cases h1 : alistGet st.activeTracking domain with
  | none => exact framePreserved_refl _
  | some tr =>
    dsimp only
    cases h2 : tr.startedAt with
    | none => exact framePreserved_refl _
    | some t0 =>
      dsimp only
      cases h3 : getDomainConfig st.storage domain with
      | none => exact framePreserved_refl _
      | some config =>
        dsimp only
        exact framePreserved_of_update _ _ _ _ _ (framePreserved_refl _)
          (fun u => (closeLastOpenSession_fields _ _ _).1)
          (fun u => (closeLastOpenSession_fields _ _ _).2.1)
          (fun u => (closeLastOpenSession_fields _ _ _).2.2)

/-- Helper: each step of the flush fold preserves frozen snapshots. -/
theorem frame_flushEntries (now : JSTime) (l : List (String × DomainTracking)) :
    ∀ (s0 s : StorageSchema), framePreserved s0 s →
      framePreserved s0 (flushEntries now l s).2 := by
  induction l with
  | nil =>
    intro s0 s h
    simpa [flushEntries] using h
  | cons e rest ih =>
    intro s0 s h
    obtain ⟨d, tr⟩ := e
    unfold flushEntries
    cases h2 : tr.startedAt with
    | none => exact ih s0 s h
    | some t0 =>
      dsimp only
      split
      · exact ih s0 s h
      · split
        · exact ih s0 s h
        · exact ih s0 _ (framePreserved_of_update _ _ _ _ _ h
            (fun u => (flushUpdater_fields _ _).1)
            (fun u => (flushUpdater_fields _ _).2.1)
            (fun u => (flushUpdater_fields _ _).2.2))

/-- Helper: the periodic flush preserves frozen snapshots. -/
theorem frame_flushActiveTracking (now : JSTime) (st : EngineState) :
    framePreserved st.storage (flushActiveTrackingImpl now st).storage := by
  unfold flushActiveTrackingImpl
  exact frame_flushEntries now st.activeTracking st.storage st.storage
    (framePreserved_refl _)

/-- Helper: the visit increment preserves frozen snapshots. -/
theorem frame_handleVisit (domain : String) (now : JSTime) (st : EngineState)
    (hnodup : (st.storage.usage.map (fun u => u.date)).Nodup) :
    framePreserved st.storage (handleVisitImpl domain now st).storage := by
  unfold handleVisitImpl
  cases h1 : getDomainConfig st.storage domain with
  | none => exact framePreserved_refl _
  | some config =>
    dsimp only
    split
    · exact framePreserved_refl _
    · exact framePreserved_of_update _ _ _ _ _
        (framePreserved_getOrCreate _ _ _ _ hnodup)
        (fun u => rfl) (fun u => rfl) (fun u => rfl)

/-- Helper: togglePause preserves frozen snapshots. -/
theorem frame_togglePause (domain : String) (now : JSTime) (st : EngineState) :
    framePreserved st.storage (togglePause domain now st).1.storage := by
  unfold togglePause
  cases h1 : getDomainConfig st.storage domain with
  | none => exact framePreserved_refl _
  | some config =>
    dsimp only
    split
    · exact framePreserved_refl _
    · split
      · exact framePreserved_refl _
      · cases h2 : alistGet st.pausedDomains domain with
        | some ps =>
          dsimp only
          exact framePreserved_of_update _ _ _ _ _ (framePreserved_refl _)
            (fun u => rfl) (fun u => rfl) (fun u => rfl)
        | none =>
          dsimp only
          split
          · exact framePreserved_refl _
          · cases h3 : alistGet st.activeTracking domain with
            | some tr =>
              dsimp only
              split
              · exact frame_stopTracking domain now st
              · exact framePreserved_refl _
            | none => exact framePreserved_refl _

/-- Helper: the pause-end alarm handler preserves frozen snapshots. -/
theorem frame_handlePauseEndAlarm (alarmName : String) (now : JSTime)
    (st : EngineState) :
    framePreserved st.storage (handlePauseEndAlarm alarmName now st).storage := by
  unfold handlePauseEndAlarm
  dsimp only
  cases h1 : alistGet st.pausedDomains (alarmName.drop 10) with
  | none => exact framePreserved_refl _
  | some ps =>
    dsimp only
    cases h2 : getDomainConfig st.storage (alarmName.drop 10) with
    | none => exact framePreserved_refl _
    | some config =>
      dsimp only
      exact framePreserved_of_update _ _ _ _ _ (framePreserved_refl _)
        (fun u => rfl) (fun u => rfl) (fun u => rfl)

/-- Helper: the notification alarm handler preserves frozen snapshots. -/
theorem frame_handleNotificationAlarm (alarmName : String) (now : JSTime)
    (st : EngineState) :
    framePreserved st.storage (handleNotificationAlarm alarmName now st).storage := by
  unfold handleNotificationAlarm
  split
  · dsimp only
    cases h1 : getDomainConfig st.storage (alarmName.drop 13) with
    | none => exact framePreserved_refl _
    | some config =>
      dsimp only
      exact framePreserved_of_update _ _ _ _ _ (framePreserved_refl _)
        (fun u => rfl) (fun u => rfl) (fun u => rfl)
  · exact framePreserved_refl _

/-- Helper: blockDomain preserves frozen snapshots. -/
theorem frame_blockDomain (domain : String) (now : JSTime) (st : EngineState) :
    framePreserved st.storage (blockDomain domain now st).storage := by
  unfold blockDomain
  cases h1 : getDomainConfig st.storage domain with
  | none => exact framePreserved_refl _
  | some config =>
    dsimp only
    exact framePreserved_of_update _ _ _ _ _ (framePreserved_refl _)
      (fun u => rfl) (fun u => rfl) (fun u => rfl)

/-- Helper: the reset accumulation step preserves frozen snapshots. -/
theorem frame_resetAlarmAccumulate (domain : String) (now : JSTime)
    (st : EngineState) :
    framePreserved st.storage (resetAlarmAccumulate domain now st).storage := by
  unfold resetAlarmAccumulate
  cases h1 : alistGet st.activeTracking domain with
  | none => exact framePreserved_refl _
  | some tr =>
    dsimp only
    cases h2 : tr.startedAt with
    | none => exact framePreserved_refl _
    | some t0 =>
      dsimp only
      cases h3 : getDomainConfig st.storage domain with
      | none => exact framePreserved_refl _
      | some config =>
        dsimp only
        split
        · exact framePreserved_of_update _ _ _ _ _ (framePreserved_refl _)
            (fun u => (closeLastOpenSession_fields _ _ _).1)
            (fun u => (closeLastOpenSession_fields _ _ _).2.1)
            (fun u => (closeLastOpenSession_fields _ _ _).2.2)
        · exact framePreserved_refl _

/-- C5: once a HostnameUsage exists, no engine operation — period upsert,
start/stop tracking, periodic flush, visit, pause toggle, pause-end, threshold
notification marking, blocking, or reset accumulation — ever changes its
frozen limitSeconds or resetTime; and the upsert sets them exactly once at
creation from the effective values of the creation day, so a config change
mid-period never alters an existing period. -/
theorem frozen_snapshot_frame_spec (st : EngineState) (config : DomainConfig)
    (settings : GlobalSettings) (domain alarmName : String) (reason : Reason)
    (now : JSTime)
    (hnodup : (st.storage.usage.map (fun u => u.date)).Nodup) :
    framePreserved st.storage
      (getOrCreateDomainUsage config settings now st.storage).storage ∧
    ((getOrCreateDomainUsage config settings now st.storage).isNew = true →
      (getOrCreateDomainUsage config settings now st.storage).usage.limitSeconds =
        getEffectiveLimit config now.weekday ∧
      (getOrCreateDomainUsage config settings now st.storage).usage.resetTime =
        getEffectiveResetTime config now.weekday settings.resetTime) ∧
    framePreserved st.storage (startTracking domain reason now st).storage ∧
    framePreserved st.storage (stopTracking domain now st).storage ∧
    framePreserved st.storage (flushActiveTrackingImpl now st).storage ∧
    framePreserved st.storage (handleVisitImpl domain now st).storage ∧
    framePreserved st.storage (togglePause domain now st).1.storage ∧
    framePreserved st.storage (handlePauseEndAlarm alarmName now st).storage ∧
    framePreserved st.storage (handleNotificationAlarm alarmName now st).storage ∧
    framePreserved st.storage (blockDomain domain now st).storage ∧
    framePreserved st.storage (resetAlarmAccumulate domain now st).storage := by
  refine ⟨framePreserved_getOrCreate config settings now st.storage hnodup, ?_,
    frame_startTracking domain reason now st hnodup,
    frame_stopTracking domain now st,
    frame_flushActiveTracking now st,
    frame_handleVisit domain now st hnodup,
    frame_togglePause domain now st,
    frame_handlePauseEndAlarm alarmName now st,
    frame_handleNotificationAlarm alarmName now st,
    frame_blockDomain domain now st,
    frame_resetAlarmAccumulate domain now st⟩
  intro hnew
  unfold getOrCreateDomainUsage at hnew ⊢
  dsimp only at hnew ⊢
  cases hf : st.storage.usage.find?
      (fun u => u.date == getCurrentPeriodDate config settings.resetTime now) with
  | some daily =>
    cases hm : daily.domains.find? (fun d => d.domain == config.domain) with
    | some du =>
      simp only [hf, hm] at hnew
      cases hnew
    | none =>
      simp only [hf, hm]
      exact ⟨rfl, rfl⟩
  | none =>
    simp only [hf]
    exact ⟨rfl, rfl⟩

/-- Witness for frozen_snapshot_frame_spec: stopping tracking on the demo
state preserves the frozen snapshot of the period entry. -/
theorem frozen_snapshot_frame_spec_witness :
    framePreserved demoState0.storage
      (stopTracking "a.test" ⟨0, 40000⟩ demoState0).storage :=
  (frozen_snapshot_frame_spec demoState0 demoCfg demoSettings "a.test"
    "pause-end-a.test" Reason.focused ⟨0, 40000⟩ (by decide)).2.2.2.1
